import Mathlib

/-!
Verification development for the hotel-prices analytics engine
(`scripts/generate_report.py`, `scripts/ingest_csv.py`, `scripts/export_csv.py`).

The Python source is shallowly embedded: prices are rationals (`ℚ`), SQL
`NULL` / Python `None` is `Option.none`, stay dates are ISO `String`s compared
lexicographically (exactly as the Python code compares them), and dictionaries
built from row lists are embedded as last-write-wins association lookups.
-/

namespace HotelsPricing

/-- Severity levels returned by the spike classifier
(`generate_report.severity_from_delta` returns `"low" | "medium" | "high"`
or Python `None`, embedded as `Option Severity`). -/
inductive Severity where
  | low
  | medium
  | high
deriving DecidableEq, Repr

/-- The `cfg["spike"]["levels"]` dictionary: each key may be absent, and
`severity_from_delta` reads it with `levels.get(key, default)`. -/
structure Levels where
  low : Option ℚ
  medium : Option ℚ
  high : Option ℚ
deriving DecidableEq, Repr

/-- `levels.get("low", 0.10)` -/
def Levels.lowD (L : Levels) : ℚ := L.low.getD (10/100)

/-- `levels.get("medium", 0.20)` -/
def Levels.mediumD (L : Levels) : ℚ := L.medium.getD (20/100)

/-- `levels.get("high", 0.30)` -/
def Levels.highD (L : Levels) : ℚ := L.high.getD (30/100)

/-- The default level dictionary `{"low": 0.10, "medium": 0.20, "high": 0.30}`
used at `generate_report.py:63` when the config has no `spike.levels`. -/
def defaultLevels : Levels := ⟨some (10/100), some (20/100), some (30/100)⟩

/-- `generate_report.severity_from_delta` (generate_report.py:26-37):
non-positive changes yield `None`; otherwise thresholds are checked from
highest to lowest with `>=`. -/
def severity_from_delta (pct_increase : ℚ) (levels : Levels) : Option Severity :=
  if pct_increase ≤ 0 then none
  else if levels.highD ≤ pct_increase then some .high
  else if levels.mediumD ≤ pct_increase then some .medium
  else if levels.lowD ≤ pct_increase then some .low
  else none

/-- `(sum(vals) / len(vals)) if vals else None` — the averaging idiom used
throughout `generate_report.py` (lines 179, 189, 239-240). -/
def meanOpt (vals : List ℚ) : Option ℚ :=
  if vals.isEmpty then none else some (vals.sum / vals.length)

/-- Row average for one date of the current run (generate_report.py:172-179):
collect the present prices of the hotels in display order, average them,
`None` when no hotel has a present price. -/
def rowAverage (hotelOrderIds : List ℕ) (cellPrice : ℕ → Option ℚ) : Option ℚ :=
  meanOpt (hotelOrderIds.filterMap cellPrice)

/-- Trailing average of row averages (generate_report.py:182-189).
`all_dates` is the sorted, range-filtered date list; for index `i` the window
is the Python slice `all_dates[max(0, i - lookback_days_avg):i]`, missing row
averages are filtered out before averaging.  When `lookback_days_avg = 0` the
dictionary at line 182 stays empty, so every lookup yields `None`. -/
def trailingRowAvg (all_dates : List String) (row_avg : String → Option ℚ)
    (lookback_days_avg i : ℕ) : Option ℚ :=
  if 0 < lookback_days_avg then
    meanOpt (((all_dates.take i).drop (i - lookback_days_avg)).filterMap row_avg)
  else none

/-- One price row fetched from the `prices` table
(`SELECT run_id, hotel_id, stay_date, price FROM prices WHERE run_id IN (...)`,
generate_report.py:89-94).  `price` is `NULL`-able (`REAL` column). -/
structure PriceRow where
  run_id : ℕ
  hotel_id : ℕ
  stay_date : String
  price : Option ℚ
deriving DecidableEq, Repr

/-- The unique key of a `prices` row (`UNIQUE(run_id, hotel_id, stay_date)`
in `db.init_db`). -/
def priceKey (x : PriceRow) : ℕ × ℕ × String := (x.run_id, x.hotel_id, x.stay_date)

/-- Cell lookup in the nested dictionary
`prices_by_run_hotel_date[run_id][hotel_id][stay_date]`
(generate_report.py:97-101, lookups via `.get`): the dictionary is filled by
iterating the fetched rows, so for a duplicated key the last row wins; both an
absent row and a present row whose `price` is `NULL` surface as `None`. -/
def lookupPrice (rows : List PriceRow) (r h : ℕ) (d : String) : Option ℚ :=
  (rows.reverse.find? fun x =>
    x.run_id == r && x.hotel_id == h && x.stay_date == d).bind (·.price)

/-- `sorted(dates_set)` (generate_report.py:98-104): the set of stay dates of
the fetched rows, as a sorted duplicate-free list of ISO date strings. -/
def sortedDates (rows : List PriceRow) : List String :=
  (rows.map PriceRow.stay_date).toFinset.sort (· ≤ ·)

/-- The configuration values consumed by `generate_report`
(generate_report.py:58-63).  `start_date`/`end_date` are `None` when absent. -/
structure Config where
  start_date : Option String
  end_date : Option String
  lookback_runs : ℕ
  lookback_days_avg : ℕ
  avg_prev_offset : ℕ
  levels : Levels

/-- Date-range filter (generate_report.py:105-108): keep dates `≥ start_date`
and `≤ end_date` when those bounds are configured. -/
def filterDates (cfg : Config) (ds : List String) : List String :=
  let ds1 := match cfg.start_date with
    | some s => ds.filter fun d => s ≤ d
    | none => ds
  match cfg.end_date with
  | some e => ds1.filter fun d => d ≤ e
  | none => ds1

/-- The reporting date list `all_dates` (generate_report.py:104-108). -/
def allDates (rows : List PriceRow) (cfg : Config) : List String :=
  filterDates cfg (sortedDates rows)

/-- Membership in the configured reporting window. -/
def inWindow (cfg : Config) (d : String) : Prop :=
  (∀ s, cfg.start_date = some s → s ≤ d) ∧ (∀ e, cfg.end_date = some e → d ≤ e)

instance (cfg : Config) (d : String) : Decidable (inWindow cfg d) := by
  unfold inWindow; infer_instance

/-- Selection of the run used for the `Δ Avg vs prev` column
(generate_report.py:191-197): `runs[avg_prev_offset]` when the offset is `≥ 1`
and that index exists, else the head of `prev_runs = runs[1:lookback_runs+1]`
when non-empty, else `None`.  `runs` is the id list ordered by recency. -/
def prevRunForAvg (runs : List ℕ) (cfg : Config) : Option ℕ :=
  if 1 ≤ cfg.avg_prev_offset ∧ cfg.avg_prev_offset < runs.length then
    runs[cfg.avg_prev_offset]?
  else
    match (runs.drop 1).take cfg.lookback_runs with
    | [] => none
    | p :: _ => some p

/-- One report cell: the displayed numeric value, the informational relative
delta shown next to it, and the severity class attached to the `<td>`. -/
structure Cell where
  value : Option ℚ
  delta : Option ℚ
  sev : Option Severity
deriving DecidableEq, Repr

/-- A per-hotel cell (generate_report.py:204-216): the current-run price, an
informational delta against the same cell of `prev_runs[0]` when both prices
are present and the prior is `> 0`, and no severity class — the `<td>` for
hotel cells is emitted without a class attribute. -/
def hotelCell (prev_runs : List ℕ) (lookPrev : ℕ → Option ℚ)
    (cur_price : Option ℚ) : Cell :=
  let delta : Option ℚ :=
    match prev_runs with
    | [] => none
    | p0 :: _ =>
      match lookPrev p0, cur_price with
      | some pv, some cv => if 0 < pv then some ((cv - pv) / pv) else none
      | _, _ => none
  ⟨cur_price, delta, none⟩

/-- The `Avg` cell (generate_report.py:219-229): shows the row average and is
colored by comparing it with the trailing row average when both exist and the
trailing one is `> 0`. -/
def mkAvgCell (cur_avg trailing : Option ℚ) (levels : Levels) : Cell :=
  let sev : Option Severity :=
    match cur_avg, trailing with
    | some ca, some ta =>
      if 0 < ta then severity_from_delta ((ca - ta) / ta) levels else none
    | _, _ => none
  ⟨cur_avg, none, sev⟩

/-- The `Δ Avg vs prev` cell (generate_report.py:231-250): blank (`""`,
`muted` class, no severity) unless both the previous-run average and the
current row average are present and the previous average is `> 0`. -/
def mkDeltaAvgCell (prev_avg cur_avg : Option ℚ) (levels : Levels) : Cell :=
  match prev_avg, cur_avg with
  | some pa, some ca =>
    if 0 < pa then
      ⟨none, some ((ca - pa) / pa), severity_from_delta ((ca - pa) / pa) levels⟩
    else ⟨none, none, none⟩
  | _, _ => ⟨none, none, none⟩

/-- One data row of the report (one `<tr>` per date). -/
structure ReportRow where
  date : String
  hotelCells : List Cell
  avg : Cell
  dAvg : Cell
deriving DecidableEq, Repr

/-- Assembly of the report row for one date (generate_report.py:200-251).
`price` is the cell lookup, `current_run` the most recent run id, `trailing`
the precomputed trailing row average for this date. -/
def mkRow (hotelOrderIds : List ℕ) (price : ℕ → ℕ → String → Option ℚ)
    (current_run : ℕ) (prev_runs : List ℕ) (prev_run_for_avg : Option ℕ)
    (trailing : Option ℚ) (levels : Levels) (d : String) : ReportRow :=
  let cur_avg := rowAverage hotelOrderIds fun h => price current_run h d
  let prev_avg : Option ℚ :=
    match prev_run_for_avg with
    | none => none
    | some pr => meanOpt (hotelOrderIds.filterMap fun h => price pr h d)
  { date := d
    hotelCells := hotelOrderIds.map fun h =>
      hotelCell prev_runs (fun p0 => price p0 h d) (price current_run h d)
    avg := mkAvgCell cur_avg trailing levels
    dAvg := mkDeltaAvgCell prev_avg cur_avg levels }

/-- The data rows of the report for a given current run and prior runs, over
the date list `ds` with cell lookup `price` (the body of the loops at
generate_report.py:169-251; the trailing dictionary is keyed by the distinct
dates of `all_dates`, i.e. by their index in it). -/
def buildRowsCore (current_run : ℕ) (rest : List ℕ) (ds : List String)
    (price : ℕ → ℕ → String → Option ℚ) (hotelOrderIds : List ℕ)
    (cfg : Config) : List ReportRow :=
  let prev_runs := rest.take cfg.lookback_runs
  let row_avg := fun d => rowAverage hotelOrderIds fun h => price current_run h d
  let pfa := prevRunForAvg (current_run :: rest) cfg
  (List.range ds.length).map fun i =>
    mkRow hotelOrderIds price current_run prev_runs pfa
      (trailingRowAvg ds row_avg cfg.lookback_days_avg i) cfg.levels (ds.getD i "")

/-- Report data rows computed from the fetched price rows. -/
def buildRows (current_run : ℕ) (rest : List ℕ) (rows : List PriceRow)
    (hotelOrderIds : List ℕ) (cfg : Config) : List ReportRow :=
  buildRowsCore current_run rest (allDates rows cfg) (lookupPrice rows)
    hotelOrderIds cfg

/-- The table-generation core of `generate_report` (generate_report.py:54-259,
stripped of I/O and HTML rendering): fails with the no-runs error when the
fetched run list is empty (line 68-69), otherwise takes `runs[0]` as the
current run and assembles one row per reporting date. -/
def generateTable (runs : List ℕ) (rows : List PriceRow)
    (hotelOrderIds : List ℕ) (cfg : Config) : Except String (List ReportRow) :=
  match runs with
  | [] => .error "No runs found in DB. Ingest data first."
  | current_run :: rest => .ok (buildRows current_run rest rows hotelOrderIds cfg)

/-! ### CSV ingestion (`scripts/ingest_csv.py`) and export (`scripts/export_csv.py`) -/

/-- Lexicographic comparison of character lists — the order Python uses to
compare strings (`min`/`max`/`sorted` over ISO date strings and hotel
names). -/
def charListLt : List Char → List Char → Bool
  | [], [] => false
  | [], _ :: _ => true
  | _ :: _, [] => false
  | a :: as, b :: bs =>
    if a < b then true else if b < a then false else charListLt as bs

/-- Python string `<`. -/
def strLt (a b : String) : Bool := charListLt a.toList b.toList

/-- Insert into an ascending list (helper for `sortStrings`). -/
def insertSorted (x : String) : List String → List String
  | [] => [x]
  | y :: ys => if strLt x y then x :: y :: ys else y :: insertSorted x ys

/-- Python `sorted` over distinct strings. -/
def sortStrings (l : List String) : List String := l.foldr insertSorted []

/-- Python `str.strip()` whitespace test (ASCII portion, which is all the CSV
cells exercise). -/
def isPySpace (c : Char) : Bool :=
  c = ' ' || c = '\t' || c = '\n' || c = '\r' || c = '\x0b' || c = '\x0c'

/-- Python `str.strip()`. -/
def pyStrip (s : String) : String :=
  ⟨((s.toList.dropWhile isPySpace).reverse.dropWhile isPySpace).reverse⟩

/-- Python `str.lower()` (ASCII portion). -/
def pyLower (s : String) : String :=
  ⟨s.toList.map Char.toLower⟩

/-- Numeric value of a digit string. -/
def digitsToNat (cs : List Char) : ℕ :=
  cs.foldl (fun a c => a * 10 + (c.toNat - 48)) 0

/-- Digits of the exponent of a Python float literal: after `e`/`E`, an
optional sign then at least one digit.  The mantissa value `num / den` is
carried as an integer numerator and natural denominator; the exponent scales
one of the two, and the final rational is assembled with `Rat.divInt`. -/
def pyFloatExpDigits (num : ℤ) (den : ℕ) (cs : List Char) : Option ℚ :=
  let (pos, cs1) :=
    match cs with
    | '+' :: t => (true, t)
    | '-' :: t => (false, t)
    | t => (true, t)
  if cs1.isEmpty || !(cs1.all Char.isDigit) then none
  else if pos then some (Rat.divInt (num * 10 ^ digitsToNat cs1) den)
  else some (Rat.divInt num (den * 10 ^ digitsToNat cs1))

/-- What may follow the mantissa of a Python float literal: nothing, or an
`e`/`E` exponent. -/
def pyFloatExpo (num : ℤ) (den : ℕ) (cs : List Char) : Option ℚ :=
  match cs with
  | [] => some (Rat.divInt num den)
  | 'e' :: t => pyFloatExpDigits num den t
  | 'E' :: t => pyFloatExpDigits num den t
  | _ => none

/-- Mantissa of a Python float literal: digits with an optional single `.`;
at least one digit overall.  `ip.fp` has the exact value
`(ip * 10^|fp| + fp) / 10^|fp|`. -/
def pyFloatMantissa (sgn : ℤ) (cs : List Char) : Option ℚ :=
  let ip := cs.takeWhile Char.isDigit
  let r1 := cs.dropWhile Char.isDigit
  match r1 with
  | '.' :: t =>
    let fp := t.takeWhile Char.isDigit
    let r2 := t.dropWhile Char.isDigit
    if ip.isEmpty && fp.isEmpty then none
    else pyFloatExpo (sgn * (digitsToNat ip * 10 ^ fp.length + digitsToNat fp))
      (10 ^ fp.length) r2
  | r =>
    if ip.isEmpty then none
    else pyFloatExpo (sgn * digitsToNat ip) 1 r

/-- Model of Python `float(s)` on an already-stripped string: `some` of the
exact rational value of a decimal literal `[+-]digits[.digits][(e|E)[+-]digits]`,
`none` where `float()` raises `ValueError`.  (The special values
`inf`/`infinity`/`nan` and underscore separators have no rational meaning and
are outside this model; no claim exercises them.) -/
def pyFloat (s : String) : Option ℚ :=
  match s.toList with
  | [] => none
  | '+' :: t => pyFloatMantissa 1 t
  | '-' :: t => pyFloatMantissa (-1) t
  | cs => pyFloatMantissa 1 cs

/-- `ingest_csv.parse_float` (ingest_csv.py:10-19): `None` input, the empty
string after stripping, the case-insensitive sentinels `n/a`, `na`, `null`,
`none`, and any string on which `float()` raises `ValueError` all map to
`None`; otherwise the parsed number. -/
def parse_float (val : Option String) : Option ℚ :=
  match val with
  | none => none
  | some v =>
    let s := pyStrip v
    if s = "" || pyLower s ∈ ["n/a", "na", "null", "none"] then none
    else pyFloat s

/-! #### Calendar arithmetic (`datetime.date` + `timedelta(days=1)`) -/

/-- Gregorian leap year. -/
def isLeap (y : ℕ) : Bool :=
  y % 4 = 0 && (y % 100 ≠ 0 || y % 400 = 0)

/-- Days in a Gregorian month. -/
def daysInMonth (y m : ℕ) : ℕ :=
  if m = 2 then (if isLeap y then 29 else 28)
  else if m = 4 || m = 6 || m = 9 || m = 11 then 30
  else 31

/-- Days in the months strictly before month `m` of year `y`. -/
def daysBeforeMonth (y m : ℕ) : ℕ :=
  ((List.range (m - 1)).map fun i => daysInMonth y (i + 1)).sum

/-- Absolute day number of a Gregorian date (proleptic, day 1 = 0001-01-01),
the quantity `datetime.date` subtraction measures. -/
def dayNumber : ℕ × ℕ × ℕ → ℕ
  | (y, m, d) => (y - 1) * 365 + (y - 1) / 4 - (y - 1) / 100 + (y - 1) / 400
      + daysBeforeMonth y m + d

/-- The successor date (`date + timedelta(days=1)`). -/
def nextDay : ℕ × ℕ × ℕ → ℕ × ℕ × ℕ
  | (y, m, d) =>
    if d < daysInMonth y m then (y, m, d + 1)
    else if m < 12 then (y, m + 1, 1)
    else (y + 1, 1, 1)

/-- `date + timedelta(days=i)`. -/
def addDays (d : ℕ × ℕ × ℕ) : ℕ → ℕ × ℕ × ℕ
  | 0 => d
  | k + 1 => addDays (nextDay d) k

/-- Parse an ISO `YYYY-MM-DD` date string (`datetime.fromisoformat`);
`none` where Python raises. -/
def parseDate (s : String) : Option (ℕ × ℕ × ℕ) :=
  match s.toList with
  | [a, b, c, d, '-', e, f, '-', g, h] =>
    if ([a, b, c, d, e, f, g, h]).all Char.isDigit then
      let y := digitsToNat [a, b, c, d]
      let m := digitsToNat [e, f]
      let dd := digitsToNat [g, h]
      if 1 ≤ m && m ≤ 12 && 1 ≤ dd && dd ≤ daysInMonth y m then some (y, m, dd)
      else none
    else none
  | _ => none

/-- Zero-pad a decimal rendering to width `k`. -/
def padNat (k n : ℕ) : String :=
  let s := toString n
  ⟨List.replicate (k - s.length) '0'⟩ ++ s

/-- `date.isoformat()`. -/
def formatDate : ℕ × ℕ × ℕ → String
  | (y, m, d) => padNat 4 y ++ "-" ++ padNat 2 m ++ "-" ++ padNat 2 d

/-- `export_csv.date_range` (export_csv.py:10-14): every calendar day from
`start` to `end` inclusive, empty when `end` precedes `start` (Python's
`range(n+1)` with negative `n`); `[]` also stands for the exception Python
raises on an unparsable bound (no claim exercises that). -/
def date_range (start stop : String) : List String :=
  match parseDate start, parseDate stop with
  | some ds, some de =>
    if dayNumber de < dayNumber ds then []
    else (List.range (dayNumber de - dayNumber ds + 1)).map fun i =>
      formatDate (addDays ds i)
  | _, _ => []

/-- One stored `prices` row produced by `upsert_price` during ingestion.
Hotel identity is the unique hotel name (`hotels.name` is `UNIQUE`; the
numeric id is a surrogate key in bijection with it). -/
structure StoredPrice where
  hotel : String
  stay_date : String
  price : Option ℚ
deriving DecidableEq, Repr

/-- The state created by one `ingest_csv` call: the run's bounds, the hotel
columns of the CSV, the hotel names present in the DB afterwards, and the
upserted price rows in write order. -/
structure IngestResult where
  start_date : String
  end_date : String
  csv_hotels : List String
  db_hotels : List String
  prices : List StoredPrice
deriving DecidableEq, Repr

/-- `csv.DictReader` record lookup: the record is the dict built by zipping
the header with the row (later duplicate keys win, columns beyond the row are
absent), read with `rec.get(name)`. -/
def recGet (header row : List String) (name : String) : Option String :=
  ((header.zip row).reverse.find? fun p => p.1 == name).map (·.2)

/-- `ingest_csv.ingest_csv` (ingest_csv.py:22-74) for a call without explicit
`--start`/`--end`: checks the header, infers the run bounds as the
lexicographic min/max of the date column, and upserts one row per
(CSV row, hotel column) with `parse_float` applied to the cell.  `none`
models the exceptions raised on an empty CSV, a header not starting with
`Date`, or `min()` over zero data rows. -/
def ingest_csv (cfg_hotels : List String) (header : List String)
    (rows : List (List String)) : Option IngestResult :=
  match header with
  | [] => none
  | h0 :: hotel_names =>
    if pyLower h0 ≠ "date" then none
    else
      let rows := rows.filter fun r => !r.isEmpty
      match rows.map (fun r => r.headD "") with
      | [] => none
      | d0 :: drest =>
        let start_date := drest.foldl (fun a b => if strLt b a then b else a) d0
        let end_date := drest.foldl (fun a b => if strLt a b then b else a) d0
        let db_hotels := (cfg_hotels ++ hotel_names).dedup
        (rows.mapM fun row =>
          (recGet header row "Date").map fun ds =>
            hotel_names.map fun hn =>
              ({ hotel := hn, stay_date := pyStrip ds
                 price := parse_float (recGet header row hn) } : StoredPrice)).map
          fun pss =>
            { start_date, end_date, csv_hotels := hotel_names, db_hotels
              prices := pss.flatten }

/-- One cell written by the CSV export: `"null" if v is None else
(int(v) if abs(v - round(v)) < 1e-6 else v)` (export_csv.py:72). -/
inductive CsvVal where
  | null
  | intv (n : ℤ)
  | realv (q : ℚ)
deriving DecidableEq, Repr

/-- Python `int(v)`: truncation toward zero, i.e. the t-division of the
reduced numerator by the denominator. -/
def pyInt (q : ℚ) : ℤ := q.num.tdiv q.den

/-- Python `round(v)`: round half to even.  `⌊q⌋ = q.num.fdiv q.den`, and the
fractional part `q - ⌊q⌋ = (q.num - ⌊q⌋·q.den) / q.den` compares with `1/2`
as `2·(q.num - ⌊q⌋·q.den)` compares with `q.den`. -/
def pyRound (q : ℚ) : ℤ :=
  let f := q.num.fdiv q.den
  let r2 := 2 * (q.num - f * q.den)
  if r2 < (q.den : ℤ) then f
  else if (q.den : ℤ) < r2 then f + 1
  else if f % 2 = 0 then f else f + 1

/-- The test `abs(v - round(v)) < 1e-6` of export_csv.py:72 on exact
rationals: `|q - pyRound q| < 1/10^6` iff `|q.num - pyRound q·q.den|·10^6 <
q.den`. -/
def nearIntegral (q : ℚ) : Bool :=
  |q.num - pyRound q * q.den| * 1000000 < (q.den : ℤ)

/-- The value placed in an exported CSV cell (export_csv.py:72). -/
def exportCell (v : Option ℚ) : CsvVal :=
  match v with
  | none => .null
  | some q => if nearIntegral q then .intv (pyInt q) else .realv q

/-- What `csv.writer` prints for a cell value.  Integral cells and the
`"null"` sentinel render exactly as Python's; the non-integral float branch
renders the exact rational (Python would print the float repr — no claim
exercises that branch). -/
def CsvVal.render : CsvVal → String
  | .null => "null"
  | .intv n => toString n
  | .realv q => toString q

/-- Export column order (export_csv.py:32-41): configured hotel names that
exist in the DB first, then the remaining DB names sorted. -/
def exportOrderedNames (cfg_names db_names : List String) : List String :=
  let first := cfg_names.filter fun n => n ∈ db_names
  first ++ (sortStrings db_names).filter fun n => n ∉ first

/-- Last-write-wins lookup of an upserted price
(`INSERT OR REPLACE` on `UNIQUE(run_id, hotel_id, stay_date)`). -/
def storedLookup (prices : List StoredPrice) (hn d : String) : Option ℚ :=
  (prices.reverse.find? fun x => x.hotel == hn && x.stay_date == d).bind (·.price)

/-- `export_csv.export_run_to_csv` (export_csv.py:17-75) for the run just
ingested: header `Date` plus ordered hotel names, then one row per calendar
day of the run's `[start_date, end_date]` range with each looked-up cell
rendered through `exportCell`.  `none` models the fallback/error path taken
when the run bounds are falsy (not exercised after an ingest that inferred
them from data rows). -/
def export_run (cfg_names db_names : List String) (res : IngestResult) :
    Option (List (List String)) :=
  if res.start_date = "" || res.end_date = "" then none
  else
    let ordered := exportOrderedNames cfg_names db_names
    some (("Date" :: ordered) ::
      (date_range res.start_date res.end_date).map fun d =>
        d :: ordered.map fun hn => (exportCell (storedLookup res.prices hn d)).render)

/-- Ingest a CSV then export the run it created (the round-trip of the spec's
testable property). -/
def roundTrip (cfg_hotels : List String) (header : List String)
    (rows : List (List String)) : Option (List (List String)) :=
  (ingest_csv cfg_hotels header rows).bind fun res =>
    export_run cfg_hotels res.db_hotels res

/-! ### Helper lemmas -/

/-- `find?` is the head of the filtered list. -/
theorem find_eq_filter_head {α : Type} (p : α → Bool) (l : List α) :
    l.find? p = (l.filter p).head? := by
  induction l with
  | nil => rfl
  | cons a t ih =>
    by_cases h : p a
    · rw [List.find?_cons_of_pos _ h, List.filter_cons_of_pos h, List.head?_cons]
    · rw [List.find?_cons_of_neg _ (by simpa using h),
        List.filter_cons_of_neg (by simpa using h), ih]

/-- Two permuted lists of length at most one are equal. -/
theorem perm_eq_of_short {α : Type} {l1 l2 : List α} (hp : l1.Perm l2)
    (hl : l1.length ≤ 1) : l1 = l2 := by
  cases l1 with
  | nil => exact (hp.symm.eq_nil).symm
  | cons a t =>
    cases t with
    | nil => exact (List.perm_singleton.mp hp.symm).symm
    | cons b u => simp at hl

/-- With unique `(run, hotel, date)` keys, at most one row matches a cell. -/
theorem filter_key_len (rows : List PriceRow) (hnd : (rows.map priceKey).Nodup)
    (r h : ℕ) (d : String) :
    (rows.filter fun x =>
      x.run_id == r && x.hotel_id == h && x.stay_date == d).length ≤ 1 := by
  induction rows with
  | nil => simp
  | cons a t ih =>
    rw [List.map_cons, List.nodup_cons] at hnd
    by_cases hpa : (a.run_id == r && a.hotel_id == h && a.stay_date == d) = true
    · rw [List.filter_cons, if_pos hpa]
      have hkey_a : priceKey a = (r, h, d) := by
        simp only [Bool.and_eq_true, beq_iff_eq] at hpa
        simp [priceKey, hpa.1.1, hpa.1.2, hpa.2]
      have hrest : t.filter (fun x =>
          x.run_id == r && x.hotel_id == h && x.stay_date == d) = [] := by
        rw [List.filter_eq_nil_iff]
        intro x hx hpx
        have hkey_x : priceKey x = (r, h, d) := by
          simp only [Bool.and_eq_true, beq_iff_eq] at hpx
          simp [priceKey, hpx.1.1, hpx.1.2, hpx.2]
        exact hnd.1 ((hkey_x.trans hkey_a.symm) ▸ List.mem_map_of_mem priceKey hx)
      rw [hrest]
      simp
    · rw [List.filter_cons, if_neg hpa]
      exact ih hnd.2

/-- Cell lookups agree on permuted stores with unique keys. -/
theorem lookupPrice_perm {rows1 rows2 : List PriceRow} (hp : rows1.Perm rows2)
    (hnd : (rows1.map priceKey).Nodup) :
    lookupPrice rows1 = lookupPrice rows2 := by
  funext r h d
  unfold lookupPrice
  rw [find_eq_filter_head, find_eq_filter_head]
  have hperm : (rows1.reverse.filter fun x =>
      x.run_id == r && x.hotel_id == h && x.stay_date == d).Perm
      (rows2.reverse.filter fun x =>
        x.run_id == r && x.hotel_id == h && x.stay_date == d) :=
    ((List.reverse_perm rows1).trans (hp.trans (List.reverse_perm rows2).symm)).filter _
  have hlen : (rows1.reverse.filter fun x =>
      x.run_id == r && x.hotel_id == h && x.stay_date == d).length ≤ 1 := by
    rw [(((List.reverse_perm rows1).filter _).length_eq :)]
    exact filter_key_len rows1 hnd r h d
  rw [perm_eq_of_short hperm hlen]

/-- The sorted date set agrees on permuted stores. -/
theorem sortedDates_perm {rows1 rows2 : List PriceRow} (hp : rows1.Perm rows2) :
    sortedDates rows1 = sortedDates rows2 := by
  unfold sortedDates
  rw [List.toFinset_eq_of_perm _ _ (hp.map _)]

/-- The hotel cells of an assembled row, unfolded. -/
theorem mkRow_hotelCells (ho : List ℕ) (price : ℕ → ℕ → String → Option ℚ)
    (cr : ℕ) (prs : List ℕ) (pfa : Option ℕ) (tr : Option ℚ) (lv : Levels)
    (d : String) :
    (mkRow ho price cr prs pfa tr lv d).hotelCells
      = ho.map fun hh => hotelCell prs (fun p0 => price p0 hh d) (price cr hh d) := rfl

/-- The displayed `Avg` value of an assembled row, unfolded. -/
theorem mkRow_avg_value (ho : List ℕ) (price : ℕ → ℕ → String → Option ℚ)
    (cr : ℕ) (prs : List ℕ) (pfa : Option ℕ) (tr : Option ℚ) (lv : Levels)
    (d : String) :
    (mkRow ho price cr prs pfa tr lv d).avg.value
      = rowAverage ho fun hh => price cr hh d := rfl

/-- The `Δ Avg vs prev` cell of an assembled row, unfolded. -/
theorem mkRow_dAvg (ho : List ℕ) (price : ℕ → ℕ → String → Option ℚ)
    (cr : ℕ) (prs : List ℕ) (pfa : Option ℕ) (tr : Option ℚ) (lv : Levels)
    (d : String) :
    (mkRow ho price cr prs pfa tr lv d).dAvg
      = mkDeltaAvgCell
          (match pfa with
            | none => none
            | some pr => meanOpt (ho.filterMap fun hh => price pr hh d))
          (rowAverage ho fun hh => price cr hh d) lv := rfl

/-- A missing current average blanks the `Δ Avg vs prev` cell. -/
theorem mkDeltaAvgCell_of_cur_none (pa : Option ℚ) (lv : Levels) :
    (mkDeltaAvgCell pa none lv).delta = none := by
  cases pa <;> rfl

/-- Window membership and provenance of every reporting date. -/
theorem of_mem_allDates {rows : List PriceRow} {cfg : Config} {d : String}
    (hd : d ∈ allDates rows cfg) :
    inWindow cfg d ∧ d ∈ rows.map PriceRow.stay_date := by
  have hsub : d ∈ sortedDates rows ∧ inWindow cfg d := by
    rcases hs : cfg.start_date with _ | s <;> rcases he : cfg.end_date with _ | e <;>
        simp only [allDates, filterDates, hs, he, List.mem_filter] at hd
    · refine ⟨hd, ?_, ?_⟩
      · intro s' hs'; rw [hs] at hs'; cases hs'
      · intro e' he'; rw [he] at he'; cases he'
    · refine ⟨hd.1, ?_, ?_⟩
      · intro s' hs'; rw [hs] at hs'; cases hs'
      · intro e' he'; rw [he] at he'
        injection he' with hee
        subst hee
        exact of_decide_eq_true hd.2
    · refine ⟨hd.1, ?_, ?_⟩
      · intro s' hs'; rw [hs] at hs'
        injection hs' with hss
        subst hss
        exact of_decide_eq_true hd.2
      · intro e' he'; rw [he] at he'; cases he'
    · refine ⟨hd.1.1, ?_, ?_⟩
      · intro s' hs'; rw [hs] at hs'
        injection hs' with hss
        subst hss
        exact of_decide_eq_true hd.1.2
      · intro e' he'; rw [he] at he'
        injection he' with hee
        subst hee
        exact of_decide_eq_true hd.2
  refine ⟨hsub.2, ?_⟩
  have hmem := hsub.1
  rw [sortedDates] at hmem
  exact List.mem_toFinset.mp
    ((Finset.mem_sort ((· ≤ ·) : String → String → Prop)).mp hmem)

/-! ### Claims -/

/-- Claim C1: the severity classifier maps a signed relative change to
`{none, low, medium, high}` by checking thresholds from highest to lowest with
`≥` comparisons, any change `≤ 0` yields `none`, and for the default
thresholds `{low: 0.10, medium: 0.20, high: 0.30}` the inputs `0.05`, `0.10`,
`0.25`, `0.30`, `-0.50` classify as `none`, `low`, `medium`, `high`, `none`. -/
theorem severity_classifier_spec :
    (∀ (pct : ℚ) (levels : Levels), pct ≤ 0 →
      severity_from_delta pct levels = none) ∧
    (∀ (pct : ℚ) (levels : Levels), 0 < pct →
      (severity_from_delta pct levels = some .high ↔ levels.highD ≤ pct) ∧
      (severity_from_delta pct levels = some .medium ↔
        levels.mediumD ≤ pct ∧ pct < levels.highD) ∧
      (severity_from_delta pct levels = some .low ↔
        levels.lowD ≤ pct ∧ pct < levels.mediumD ∧ pct < levels.highD) ∧
      (severity_from_delta pct levels = none ↔
        pct < levels.lowD ∧ pct < levels.mediumD ∧ pct < levels.highD)) ∧
    severity_from_delta (5/100) defaultLevels = none ∧
    severity_from_delta (10/100) defaultLevels = some .low ∧
    severity_from_delta (25/100) defaultLevels = some .medium ∧
    severity_from_delta (30/100) defaultLevels = some .high ∧
    severity_from_delta (-(50/100)) defaultLevels = none := by
  have hD : ∀ x : ℚ, severity_from_delta x defaultLevels
      = if x ≤ 0 then none
        else if 30/100 ≤ x then some .high
        else if 20/100 ≤ x then some .medium
        else if 10/100 ≤ x then some .low
        else none := fun x => rfl
  refine ⟨?_, ?_, by rw [hD]; norm_num, by rw [hD]; norm_num,
    by rw [hD]; norm_num, by rw [hD]; norm_num, by rw [hD]; norm_num⟩
  · intro pct levels h
    simp [severity_from_delta, h]
  · intro pct levels hpos
    have hnle : ¬ pct ≤ 0 := not_le.mpr hpos
    unfold severity_from_delta
    rw [if_neg hnle]
    split_ifs with h1 h2 h3
    · exact ⟨by simp [h1], by simp [not_lt.mpr h1], by simp [not_lt.mpr h1],
        by simp [not_lt.mpr h1]⟩
    · exact ⟨by simp [h1], by simp [h2, not_le.mp h1], by simp [not_lt.mpr h2],
        by simp [not_lt.mpr h2]⟩
    · exact ⟨by simp [h1], by simp [h2], by simp [h3, not_le.mp h1, not_le.mp h2],
        by simp [not_lt.mpr h3]⟩
    · exact ⟨by simp [h1], by simp [h2], by simp [h3],
        by simp [not_le.mp h1, not_le.mp h2, not_le.mp h3]⟩

/-- Witness for `severity_classifier_spec` at concrete inputs. -/
theorem severity_classifier_spec_witness :
    severity_from_delta (-(1/2)) defaultLevels = none ∧
    severity_from_delta (1/4) defaultLevels = some .medium :=
  ⟨severity_classifier_spec.1 (-(1/2)) defaultLevels (by norm_num),
   ((severity_classifier_spec.2.1 (1/4) defaultLevels (by norm_num)).2.1).mpr
     (by constructor <;> norm_num [defaultLevels, Levels.mediumD, Levels.highD])⟩

/-- Claim C3: the row average is the mean of the present (non-missing) prices
over the hotels in display order, and it is missing — not zero, not an
error — exactly when no hotel has a present price for the date. -/
theorem row_average_spec (ho : List ℕ) (cellPrice : ℕ → Option ℚ) :
    (rowAverage ho cellPrice = none ↔ ∀ h ∈ ho, cellPrice h = none) ∧
    (ho.filterMap cellPrice ≠ [] →
      rowAverage ho cellPrice
        = some ((ho.filterMap cellPrice).sum / (ho.filterMap cellPrice).length)) := by
  constructor
  · rw [rowAverage, meanOpt]
    rcases hfm : ho.filterMap cellPrice with _ | ⟨a, l⟩
    · simpa using List.filterMap_eq_nil_iff.mp hfm
    · simp only [hfm, List.isEmpty_cons, if_neg]
      constructor
      · intro hcontra; exact absurd hcontra (by simp)
      · intro hall
        exact absurd (List.filterMap_eq_nil_iff.mpr hall) (by simp [hfm])
  · intro hne
    rw [rowAverage, meanOpt, if_neg (by simpa [List.isEmpty_iff] using hne)]

/-- Witness for `row_average_spec` at a concrete hotel list and lookup. -/
theorem row_average_spec_witness :
    rowAverage [1, 2] (fun h => if h = 1 then some (4:ℚ) else none) = some 4 := by
  have := (row_average_spec [1, 2]
    (fun h => if h = 1 then some (4:ℚ) else none)).2 (by decide)
  simpa using this

/-- Claim C4 counterexample: with `lookback_runs = 0` and `avg_prev_offset = 2`
over the two-run list `[10, 20]`, the selector yields no comparison run even
though the prior run `20` exists — refuting "yields none only when no prior
run exists at all" as universally stated. -/
theorem run_selector_counterexample :
    prevRunForAvg [10, 20]
        { start_date := none, end_date := none, lookback_runs := 0
          lookback_days_avg := 5, avg_prev_offset := 2, levels := defaultLevels }
      = none ∧
    ([10, 20] : List ℕ).drop 1 ≠ [] := by
  constructor
  · rfl
  · decide

/-- Claim C4 (amended: additionally assuming `lookback_runs ≥ 1`, which the
fallback `prev_runs[0]` needs in order to see any prior run): for a non-empty
run list and `avg_prev_offset ≥ 1`, the most recent run is the current run;
`prev_run_for_avg` is the run at index `avg_prev_offset` when it exists, else
the nearest prior run, and is `none` exactly when no prior run exists; an
empty run list makes report generation fail with the no-runs error. -/
theorem run_selector_amended (runs : List ℕ) (rows : List PriceRow)
    (ho : List ℕ) (cfg : Config) (hne : runs ≠ [])
    (hoff : 1 ≤ cfg.avg_prev_offset) (hlb : 1 ≤ cfg.lookback_runs) :
    (∃ c rest, runs = c :: rest ∧
      generateTable runs rows ho cfg = .ok (buildRows c rest rows ho cfg)) ∧
    (cfg.avg_prev_offset < runs.length →
      prevRunForAvg runs cfg = runs[cfg.avg_prev_offset]?) ∧
    (runs.length ≤ cfg.avg_prev_offset →
      prevRunForAvg runs cfg = (runs.drop 1).head?) ∧
    (prevRunForAvg runs cfg = none ↔ runs.drop 1 = []) ∧
    (∀ (rows' : List PriceRow) (ho' : List ℕ) (cfg' : Config),
      generateTable [] rows' ho' cfg'
        = .error "No runs found in DB. Ingest data first.") := by
  obtain ⟨c, rest, rfl⟩ : ∃ c rest, runs = c :: rest := by
    cases runs with
    | nil => exact absurd rfl hne
    | cons c rest => exact ⟨c, rest, rfl⟩
  refine ⟨⟨c, rest, rfl, rfl⟩, ?_, ?_, ?_, fun _ _ _ => rfl⟩
  · intro hlt
    rw [prevRunForAvg, if_pos ⟨hoff, hlt⟩]
  · intro hge
    rw [prevRunForAvg, if_neg (by rintro ⟨-, hlt⟩; omega)]
    cases rest with
    | nil => simp
    | cons p t =>
      cases hk : cfg.lookback_runs with
      | zero => omega
      | succ k => simp [hk, List.take_succ_cons]
  · constructor
    · intro hnone
      by_cases hlt : cfg.avg_prev_offset < (c :: rest).length
      · rw [prevRunForAvg, if_pos ⟨hoff, hlt⟩] at hnone
        exact absurd hnone (by simp [List.getElem?_eq_getElem hlt])
      · rw [prevRunForAvg, if_neg (by rintro ⟨-, h⟩; exact hlt h)] at hnone
        rcases htk : ((c :: rest).drop 1).take cfg.lookback_runs with _ | ⟨p, t⟩
        · rcases List.take_eq_nil_iff.mp htk with h | h
          · omega
          · exact h
        · rw [htk] at hnone; exact absurd hnone (by simp)
    · rintro hrest
      simp only [List.drop_succ_cons, List.drop_zero] at hrest
      subst hrest
      rw [prevRunForAvg, if_neg (by rintro ⟨-, h⟩; simp at h; omega)]
      simp

/-- Witness for `run_selector_amended` at a concrete run list and offset. -/
theorem run_selector_amended_witness :
    prevRunForAvg [7, 8]
        { start_date := none, end_date := none, lookback_runs := 3
          lookback_days_avg := 5, avg_prev_offset := 1, levels := defaultLevels }
      = some 8 := by
  have := (run_selector_amended [7, 8] [] []
    { start_date := none, end_date := none, lookback_runs := 3
      lookback_days_avg := 5, avg_prev_offset := 1, levels := defaultLevels }
    (by decide) (by decide) (by decide)).2.1 (by decide)
  simpa using this

/-- Claim C10 (implicit): CSV cell parsing maps the documented sentinels
(empty string, case-insensitive `n/a`, `na`, `null`, `none`) to missing, and
*also* every other string on which `float()` fails — malformed numeric
literals are silently ingested as missing rather than raising. -/
theorem parse_float_spec :
    (∀ v : String, pyFloat (pyStrip v) = none → parse_float (some v) = none) ∧
    parse_float none = none ∧
    parse_float (some "") = none ∧
    parse_float (some "N/A") = none ∧
    parse_float (some "na") = none ∧
    parse_float (some "NULL") = none ∧
    parse_float (some "None") = none ∧
    parse_float (some "abc") = none ∧
    parse_float (some "12.5.3") = none ∧
    parse_float (some "1e") = none ∧
    parse_float (some "--5") = none ∧
    parse_float (some " 42.5 ") = some (mkRat 85 2) := by
  refine ⟨?_, rfl, by decide, by decide, by decide, by decide, by decide,
    by decide, by decide, by decide, by decide, by decide⟩
  intro v hv
  rw [parse_float]
  split_ifs with h
  · rfl
  · exact hv

/-- Witness for `parse_float_spec` at a concrete malformed literal. -/
theorem parse_float_spec_witness : parse_float (some "xyz") = none :=
  parse_float_spec.1 "xyz" (by decide)

/-- Claim C2: for every index `i` into the sorted, range-filtered date list and
every `k > 0`, the trailing baseline at index `i` is the mean of the
non-missing row averages over exactly `all_dates[max(0, i-k):i]`; it therefore
never includes the row average of the date itself or of any date `≥` it, and
it is missing when the filtered sub-slice is empty. -/
theorem trailing_baseline_spec (all_dates : List String)
    (row_avg : String → Option ℚ) (k i : ℕ)
    (hs : all_dates.Sorted (· < ·)) (hi : i < all_dates.length) (hk : 0 < k) :
    trailingRowAvg all_dates row_avg k i
        = meanOpt (((all_dates.take i).drop (i - k)).filterMap row_avg) ∧
    (∀ d ∈ (all_dates.take i).drop (i - k), d < all_dates.getD i "") ∧
    (((all_dates.take i).drop (i - k)).filterMap row_avg = [] →
      trailingRowAvg all_dates row_avg k i = none) := by
  have h1 : trailingRowAvg all_dates row_avg k i
      = meanOpt (((all_dates.take i).drop (i - k)).filterMap row_avg) := by
    rw [trailingRowAvg, if_pos hk]
  refine ⟨h1, ?_, ?_⟩
  · intro d hd
    have hd' : d ∈ all_dates.take i := List.mem_of_mem_drop hd
    obtain ⟨j, hj, hjd⟩ := List.mem_iff_getElem.mp hd'
    have hji : j < i := lt_of_lt_of_le hj (by simp [List.length_take])
    have hjlen : j < all_dates.length := lt_of_lt_of_le hj (by simp [List.length_take])
    have hd2 : all_dates.getD i "" = all_dates[i] := List.getD_eq_getElem _ _ hi
    have hjd2 : all_dates[j] = d := by
      rw [← hjd]; exact (List.getElem_take _).symm
    rw [hd2, ← hjd2]
    exact List.pairwise_iff_getElem.mp hs j i hjlen hi hji
  · intro hempty
    rw [h1, hempty]
    rfl

/-- Witness for `trailing_baseline_spec` at a concrete sorted date list. -/
theorem trailing_baseline_spec_witness :
    trailingRowAvg ["a", "b", "c"]
        (fun d => if d = "b" then some (5:ℚ) else none) 2 2
      = meanOpt (((["a", "b", "c"].take 2).drop (2 - 2)).filterMap
          (fun d => if d = "b" then some (5:ℚ) else none)) :=
  (trailing_baseline_spec ["a", "b", "c"]
    (fun d => if d = "b" then some (5:ℚ) else none) 2 2
    (by
      have hab : "a" < "b" := String.lt_iff_toList_lt.mpr (by decide)
      have hac : "a" < "c" := String.lt_iff_toList_lt.mpr (by decide)
      have hbc : "b" < "c" := String.lt_iff_toList_lt.mpr (by decide)
      refine List.pairwise_cons.mpr
        ⟨?_, List.pairwise_cons.mpr ⟨?_, List.pairwise_singleton _ _⟩⟩
      · intro b hb
        rcases List.mem_cons.mp hb with rfl | hb2
        · exact hab
        · obtain rfl := List.mem_singleton.mp hb2
          exact hac
      · intro b hb
        obtain rfl := List.mem_singleton.mp hb
        exact hbc)
    (by decide) (by decide)).1

/-- Claim C5: when the selected comparison run has no present price for any
hotel on a date, that date's `Δ Avg vs prev` cell is blank and carries no
severity tag, whatever the current-run row average is. -/
theorem delta_avg_missing_baseline (ho : List ℕ)
    (price : ℕ → ℕ → String → Option ℚ) (current_run : ℕ) (prev_runs : List ℕ)
    (pr : ℕ) (trailing : Option ℚ) (levels : Levels) (d : String)
    (hnone : ∀ h ∈ ho, price pr h d = none) :
    (mkRow ho price current_run prev_runs (some pr) trailing levels d).dAvg
      = ⟨none, none, none⟩ := by
  have hfm : ho.filterMap (fun h => price pr h d) = [] :=
    List.filterMap_eq_nil_iff.mpr hnone
  calc (mkRow ho price current_run prev_runs (some pr) trailing levels d).dAvg
      = mkDeltaAvgCell (meanOpt (ho.filterMap fun h => price pr h d))
          (rowAverage ho fun h => price current_run h d) levels := rfl
    _ = ⟨none, none, none⟩ := by rw [hfm]; rfl

/-- Witness for `delta_avg_missing_baseline` with a prior run that has no
observations while the current run does. -/
theorem delta_avg_missing_baseline_witness :
    (mkRow [1] (fun r (_ : ℕ) (_ : String) => if r = 0 then some (9:ℚ) else none)
        0 [3] (some 3) none defaultLevels "x").dAvg = ⟨none, none, none⟩ :=
  delta_avg_missing_baseline [1]
    (fun r (_ : ℕ) (_ : String) => if r = 0 then some (9:ℚ) else none)
    0 [3] 3 none defaultLevels "x" (by decide)

/-- Claim C6: each per-hotel cell shows the current-run price; its delta is
`(cur - prev) / prev` against the same cell of `prev_runs[0]` and is present
exactly when a previous run exists, both prices are present and the prior
price is `> 0`; and no per-hotel cell ever carries a severity tag. -/
theorem hotel_cell_spec (ho : List ℕ) (price : ℕ → ℕ → String → Option ℚ)
    (current_run : ℕ) (prev_runs : List ℕ) (pfa : Option ℕ)
    (trailing : Option ℚ) (levels : Levels) (d : String)
    (i h : ℕ) (c : Cell)
    (hh : ho[i]? = some h)
    (hc : (mkRow ho price current_run prev_runs pfa trailing levels d).hotelCells[i]?
      = some c) :
    c.sev = none ∧ c.value = price current_run h d ∧
    (∀ q : ℚ, c.delta = some q ↔
      ∃ p0 rest cv pv, prev_runs = p0 :: rest ∧
        price current_run h d = some cv ∧ price p0 h d = some pv ∧
        0 < pv ∧ q = (cv - pv) / pv) := by
  have hcells : (mkRow ho price current_run prev_runs pfa trailing levels d).hotelCells
      = ho.map fun hh' => hotelCell prev_runs (fun p0 => price p0 hh' d)
          (price current_run hh' d) := rfl
  rw [hcells, List.getElem?_map, hh, Option.map_some'] at hc
  obtain rfl : hotelCell prev_runs (fun p0 => price p0 h d)
      (price current_run h d) = c := Option.some.inj hc
  cases prev_runs with
  | nil =>
    refine ⟨rfl, rfl, fun q => ?_⟩
    constructor
    · intro hq; exact Option.noConfusion hq
    · rintro ⟨p0, rest, cv, pv, hpr, -⟩; exact List.noConfusion hpr
  | cons p0 rest =>
    refine ⟨rfl, rfl, fun q => ?_⟩
    show (match price p0 h d, price current_run h d with
      | some pv, some cv => if 0 < pv then some ((cv - pv) / pv) else none
      | _, _ => none) = some q ↔ _
    rcases hpv : price p0 h d with _ | pv <;>
      rcases hcv : price current_run h d with _ | cv
    · constructor
      · intro hq; exact Option.noConfusion hq
      · rintro ⟨p0', rest', cv', pv', hpr', hcv', hpv', h0', rfl⟩
        exact Option.noConfusion hcv'
    · constructor
      · intro hq; exact Option.noConfusion hq
      · rintro ⟨p0', rest', cv', pv', hpr', hcv', hpv', h0', rfl⟩
        obtain rfl : p0' = p0 := (List.cons.inj hpr').1.symm
        rw [hpv] at hpv'; exact Option.noConfusion hpv'
    · constructor
      · intro hq; exact Option.noConfusion hq
      · rintro ⟨p0', rest', cv', pv', hpr', hcv', hpv', h0', rfl⟩
        exact Option.noConfusion hcv'
    · by_cases h0 : 0 < pv
      · rw [show (match (some pv : Option ℚ), (some cv : Option ℚ) with
          | some pv, some cv => if 0 < pv then some ((cv - pv) / pv) else none
          | _, _ => none) = if 0 < pv then some ((cv - pv) / pv) else none
          from rfl, if_pos h0]
        constructor
        · intro hq
          obtain rfl : (cv - pv) / pv = q := Option.some.inj hq
          exact ⟨p0, rest, cv, pv, rfl, rfl, hpv, h0, rfl⟩
        · rintro ⟨p0', rest', cv', pv', hpr', hcv', hpv', h0', rfl⟩
          obtain rfl : cv = cv' := Option.some.inj hcv'
          obtain rfl : p0' = p0 := (List.cons.inj hpr').1.symm
          obtain rfl : pv = pv' := Option.some.inj (hpv.symm.trans hpv')
          rfl
      · rw [show (match (some pv : Option ℚ), (some cv : Option ℚ) with
          | some pv, some cv => if 0 < pv then some ((cv - pv) / pv) else none
          | _, _ => none) = if 0 < pv then some ((cv - pv) / pv) else none
          from rfl, if_neg h0]
        constructor
        · intro hq; exact Option.noConfusion hq
        · rintro ⟨p0', rest', cv', pv', hpr', hcv', hpv', h0', rfl⟩
          obtain rfl : p0' = p0 := (List.cons.inj hpr').1.symm
          obtain rfl : pv = pv' := Option.some.inj (hpv.symm.trans hpv')
          exact absurd h0' h0

/-- Witness for `hotel_cell_spec` at a concrete one-hotel row with a previous
run. -/
theorem hotel_cell_spec_witness :
    (hotelCell [2]
        (fun p0 => if p0 = 1 then some (3:ℚ) else if p0 = 2 then some 2 else none)
        (some 3)).sev = none ∧
    (hotelCell [2]
        (fun p0 => if p0 = 1 then some (3:ℚ) else if p0 = 2 then some 2 else none)
        (some 3)).delta = some ((3 - 2) / 2) := by
  have hc : (mkRow [4] (fun r (_ : ℕ) (_ : String) =>
        if r = 1 then some (3:ℚ) else if r = 2 then some 2 else none)
      1 [2] none none defaultLevels "d").hotelCells[0]?
      = some (hotelCell [2]
          (fun p0 => if p0 = 1 then some (3:ℚ) else if p0 = 2 then some 2 else none)
          (some 3)) := rfl
  have hmain := hotel_cell_spec [4]
    (fun r (_ : ℕ) (_ : String) =>
      if r = 1 then some (3:ℚ) else if r = 2 then some 2 else none)
    1 [2] none none defaultLevels "d" 0 4 _ rfl hc
  exact ⟨hmain.1,
    (hmain.2.2 ((3 - 2) / 2)).mpr ⟨2, [], 3, 2, rfl, rfl, rfl, by norm_num, rfl⟩⟩

/-- Claim C7: ingesting a CSV with header `Date,A,B` and rows
`2024-01-01,100,200` and `2024-01-02,,210` creates one run whose export
reproduces a CSV with identical dates and price values, the missing cell
rendered as the export sentinel `null`. -/
theorem csv_round_trip :
    roundTrip [] ["Date", "A", "B"]
        [["2024-01-01", "100", "200"], ["2024-01-02", "", "210"]]
      = some [["Date", "A", "B"],
              ["2024-01-01", "100", "200"],
              ["2024-01-02", "null", "210"]] := by decide

/-- Claim C8: the assembled report is a pure, deterministic function of the
selected runs' observation sets, the hotel order and the configuration — in
particular, two invocations over the same observation *set* (any two store row
orders of the same uniquely-keyed observations) produce identical reports. -/
theorem report_pure_function (runs : List ℕ) (rows1 rows2 : List PriceRow)
    (ho : List ℕ) (cfg : Config) (hp : rows1.Perm rows2)
    (hnd : (rows1.map priceKey).Nodup) :
    generateTable runs rows1 ho cfg = generateTable runs rows2 ho cfg := by
  cases runs with
  | nil => rfl
  | cons c rest =>
    show Except.ok (buildRows c rest rows1 ho cfg)
      = Except.ok (buildRows c rest rows2 ho cfg)
    rw [buildRows, buildRows, allDates, allDates, sortedDates_perm hp,
      lookupPrice_perm hp hnd]

/-- Witness for `report_pure_function`: the same two observations in either
store order give the same report. -/
theorem report_pure_function_witness :
    generateTable [1] [⟨1, 1, "a", some 2⟩, ⟨1, 2, "a", some 4⟩] [1, 2]
        { start_date := none, end_date := none, lookback_runs := 3
          lookback_days_avg := 5, avg_prev_offset := 1, levels := defaultLevels }
      = generateTable [1] [⟨1, 2, "a", some 4⟩, ⟨1, 1, "a", some 2⟩] [1, 2]
        { start_date := none, end_date := none, lookback_runs := 3
          lookback_days_avg := 5, avg_prev_offset := 1, levels := defaultLevels } :=
  report_pure_function [1] _ _ [1, 2] _ (by decide) (by decide)

/-- Claim C9: when the store has at least one run but the current run has no
observation inside the reporting window, a report is still produced (no
failure) and its current-run cells and averages are all missing; the no-runs
error occurs exactly when the run list is empty. -/
theorem empty_current_run_report (runs : List ℕ) (rows : List PriceRow)
    (ho : List ℕ) (cfg : Config) (c : ℕ) (rest : List ℕ)
    (hruns : runs = c :: rest)
    (hcur : ∀ x ∈ rows, x.run_id = c → ¬ inWindow cfg x.stay_date) :
    (∃ t, generateTable runs rows ho cfg = .ok t ∧
      ∀ row ∈ t, (∀ cell ∈ row.hotelCells, cell.value = none) ∧
        row.avg.value = none ∧ row.dAvg.delta = none) ∧
    (∀ (runs' : List ℕ) (rows' : List PriceRow) (ho' : List ℕ) (cfg' : Config),
      generateTable runs' rows' ho' cfg'
          = .error "No runs found in DB. Ingest data first." ↔ runs' = []) := by
  subst hruns
  constructor
  · refine ⟨buildRows c rest rows ho cfg, rfl, ?_⟩
    intro row hrow
    simp only [buildRows, buildRowsCore, List.mem_map, List.mem_range] at hrow
    obtain ⟨i, hi, rfl⟩ := hrow
    have hdmem : (allDates rows cfg).getD i "" ∈ allDates rows cfg := by
      rw [List.getD_eq_getElem _ _ hi]
      exact List.getElem_mem _
    have hlook : ∀ hh : ℕ,
        lookupPrice rows c hh ((allDates rows cfg).getD i "") = none := by
      intro hh
      have hfind : rows.reverse.find? (fun x =>
          x.run_id == c && x.hotel_id == hh
            && x.stay_date == (allDates rows cfg).getD i "") = none := by
        rw [List.find?_eq_none]
        intro x hx hpx
        simp only [Bool.and_eq_true, beq_iff_eq] at hpx
        refine absurd ?_ (hcur x (List.mem_reverse.mp hx) hpx.1.1)
        rw [hpx.2]
        exact (of_mem_allDates hdmem).1
      unfold lookupPrice
      rw [hfind]
      rfl
    have hra : rowAverage ho
        (fun hh => lookupPrice rows c hh ((allDates rows cfg).getD i "")) = none := by
      rw [rowAverage, List.filterMap_eq_nil_iff.mpr fun hh _ => hlook hh]
      rfl
    refine ⟨?_, ?_, ?_⟩
    · intro cell hcell
      rw [mkRow_hotelCells] at hcell
      obtain ⟨hh, hmem, rfl⟩ := List.mem_map.mp hcell
      exact hlook hh
    · rw [mkRow_avg_value]
      exact hra
    · rw [mkRow_dAvg, hra]
      exact mkDeltaAvgCell_of_cur_none _ _
  · intro runs' rows' ho' cfg'
    cases runs' with
    | nil => simp [generateTable]
    | cons a t => simp [generateTable]

/-- Witness for `empty_current_run_report`: a store whose only observation
belongs to the previous run still yields a report, not the no-runs error. -/
theorem empty_current_run_report_witness :
    generateTable [1, 2] [⟨2, 1, "b", some (5:ℚ)⟩] [1]
        { start_date := none, end_date := none, lookback_runs := 3
          lookback_days_avg := 5, avg_prev_offset := 1, levels := defaultLevels }
      ≠ .error "No runs found in DB. Ingest data first." := by
  have h := (empty_current_run_report [1, 2] [⟨2, 1, "b", some (5:ℚ)⟩] [1]
    { start_date := none, end_date := none, lookback_runs := 3
      lookback_days_avg := 5, avg_prev_offset := 1, levels := defaultLevels }
    1 [2] rfl (by decide)).1
  obtain ⟨t, ht, -⟩ := h
  rw [ht]
  intro hcontra
  exact Except.noConfusion hcontra

end HotelsPricing
